import Mathlib

/-!
Verification of the ohlc_handler indicator and backfill engine.

Each definition below is a shallow embedding of a function of the Python
source (src/indicators/*.py, src/main.py, src/db_handler.py,
src/binance_client.py).  Prices, volumes and indicator values are modelled
as rationals; timestamps as integers (milliseconds since the epoch);
nullable database fields as `Option`.
-/

/-- One OHLCV candle as loaded from the `ohlc_data` table
(`db_handler.get_klines` row, after the numeric conversions).
`volume` is nullable in storage; the OBV calculator fills nulls with 0. -/
structure Candle where
  open_price : ℚ
  high : ℚ
  low : ℚ
  close : ℚ
  volume : Option ℚ
deriving DecidableEq, Repr

/-- Row lookup with the out-of-range default used only outside proved bounds. -/
def candleD (cs : List Candle) (i : ℕ) : Candle :=
  cs.getD i ⟨0, 0, 0, 0, none⟩

/- ### Moving average family — `calculator.IndicatorCalculator._calculate_ema`

`df['close'].ewm(span=period, adjust=False).mean()`:
the pandas adjust=False recurrence `y[0] = x[0]`,
`y[t] = alpha * x[t] + (1 - alpha) * y[t-1]` with `alpha = 2 / (span + 1)`. -/

/-- Tail of the adjust=False exponentially weighted mean: `y` is the previous
output value, the result lists the outputs for the remaining inputs. -/
def emaFrom (a : ℚ) : ℚ → List ℚ → List ℚ
  | _, [] => []
  | y, x :: xs => (a * x + (1 - a) * y) :: emaFrom a (a * x + (1 - a) * y) xs

/-- `ewm(span=p, adjust=False).mean()` applied to the close series. -/
def ema (p : ℕ) (closes : List ℚ) : List ℚ :=
  match closes with
  | [] => []
  | c :: rest => c :: emaFrom (2 / ((p : ℚ) + 1)) c rest

theorem emaFrom_length (a : ℚ) : ∀ (xs : List ℚ) (y : ℚ), (emaFrom a y xs).length = xs.length
  | [], _ => rfl
  | _ :: xs, _ => by simp [emaFrom, emaFrom_length a xs]

theorem ema_length (p : ℕ) (closes : List ℚ) : (ema p closes).length = closes.length := by
  cases closes with
  | nil => rfl
  | cons c rest => simp [ema, emaFrom_length]

theorem emaFrom_getD (a : ℚ) : ∀ (xs : List ℚ) (y : ℚ) (t : ℕ), t < xs.length →
    (emaFrom a y xs).getD t 0 =
      a * xs.getD t 0 + (1 - a) * ((y :: emaFrom a y xs).getD t 0)
  | [], _, t, ht => absurd ht (by simp)
  | x :: xs, y, 0, _ => by simp [emaFrom]
  | x :: xs, y, t + 1, ht => by
    have ht' : t < xs.length := by simpa using ht
    simpa [emaFrom] using emaFrom_getD a xs (a * x + (1 - a) * y) t ht'

/-- C1: for every non-empty close series and period p, the EMA output follows
`y[0] = close[0]`, `y[t] = alpha * close[t] + (1 - alpha) * y[t-1]` with
`alpha = 2 / (p + 1)`, for every in-range t; and on `[10, 11, 9, 12]` with
p = 3 the outputs are exactly `[10, 10.5, 9.75, 10.875]`. -/
theorem ema_recurrence (p : ℕ) (closes : List ℚ) (hne : closes ≠ []) :
    (ema p closes).getD 0 0 = closes.getD 0 0 ∧
    (∀ t, t + 1 < closes.length →
      (ema p closes).getD (t + 1) 0 =
        (2 / ((p : ℚ) + 1)) * closes.getD (t + 1) 0 +
          (1 - 2 / ((p : ℚ) + 1)) * (ema p closes).getD t 0) ∧
    ema 3 [10, 11, 9, 12] = [10, 21/2, 39/4, 87/8] := by
  obtain ⟨c, rest, rfl⟩ : ∃ c rest, closes = c :: rest := by
    cases closes with
    | nil => exact absurd rfl hne
    | cons c rest => exact ⟨c, rest, rfl⟩
  refine ⟨by simp [ema], ?_, by norm_num [ema, emaFrom]⟩
  intro t ht
  have ht' : t < rest.length := by simpa using ht
  simpa [ema] using emaFrom_getD (2 / ((p : ℚ) + 1)) rest c t ht'

/-- Witness for C1 at p = 3, closes = [10, 11, 9, 12], t = 0. -/
theorem ema_recurrence_witness :
    (ema 3 [10, 11, 9, 12]).getD 0 0 = (10 : ℚ) ∧
    (ema 3 [10, 11, 9, 12]).getD 1 0 =
      (2 / ((3 : ℚ) + 1)) * 11 + (1 - 2 / ((3 : ℚ) + 1)) * (ema 3 [10, 11, 9, 12]).getD 0 0 := by
  have h := ema_recurrence 3 [10, 11, 9, 12] (by simp)
  exact ⟨h.1, by simpa using h.2.1 0 (by norm_num)⟩

/- ### Relative-strength oscillator — `rsi_calculator.RSICalculator._calculate_rsi_values`

`dif = close.diff()`; `win = where(dif > 0, dif, 0)`; `loss = where(dif < 0, |dif|, 0)`;
`ema_win = win.ewm(alpha=1/period).mean()` (pandas default adjust=True), same for loss;
`rs = ema_win / ema_loss`; `rsi = where(ema_loss == 0, 100, 100 - 100/(1+rs))`.
The first delta is undefined (NaN), so `win[0] = loss[0] = 0`. -/

/-- Per-bar gain: `np.where(dif > 0, dif, 0)`, with `win[0] = 0`. -/
def gainAt (closes : List ℚ) (t : ℕ) : ℚ :=
  if t = 0 then 0
  else if closes.getD t 0 - closes.getD (t - 1) 0 > 0 then
    closes.getD t 0 - closes.getD (t - 1) 0
  else 0

/-- Per-bar loss: `np.where(dif < 0, abs(dif), 0)`, with `loss[0] = 0`. -/
def lossAt (closes : List ℚ) (t : ℕ) : ℚ :=
  if t = 0 then 0
  else if closes.getD t 0 - closes.getD (t - 1) 0 < 0 then
    |closes.getD t 0 - closes.getD (t - 1) 0|
  else 0

/-- Numerator of the pandas adjust=True exponentially weighted mean:
`num[t] = x[t] + (1 - alpha) * num[t-1]`. -/
def ewmNum (a : ℚ) (f : ℕ → ℚ) : ℕ → ℚ
  | 0 => f 0
  | t + 1 => f (t + 1) + (1 - a) * ewmNum a f t

/-- Denominator of the pandas adjust=True exponentially weighted mean:
`den[t] = 1 + (1 - alpha) * den[t-1]`. -/
def ewmDen (a : ℚ) : ℕ → ℚ
  | 0 => 1
  | t + 1 => 1 + (1 - a) * ewmDen a t

/-- Pandas `ewm(alpha=a).mean()` (adjust=True, the default) at index t. -/
def ewmMean (a : ℚ) (f : ℕ → ℚ) (t : ℕ) : ℚ :=
  ewmNum a f t / ewmDen a t

/-- RSI value at bar t: 100 when the smoothed loss is 0, else `100 - 100/(1+rs)`. -/
def rsiAt (p : ℕ) (closes : List ℚ) (t : ℕ) : ℚ :=
  if ewmMean (1 / p) (lossAt closes) t = 0 then 100
  else 100 - 100 / (1 + ewmMean (1 / p) (gainAt closes) t / ewmMean (1 / p) (lossAt closes) t)

theorem ewmDen_pos {a : ℚ} (ha : a ≤ 1) : ∀ t, 0 < ewmDen a t
  | 0 => one_pos
  | t + 1 => by
    have h := ewmDen_pos ha t
    have h1 : 0 ≤ (1 - a) * ewmDen a t := mul_nonneg (by linarith) h.le
    simp only [ewmDen]
    linarith

theorem ewmNum_nonneg {a : ℚ} {f : ℕ → ℚ} (ha : a ≤ 1) (hf : ∀ t, 0 ≤ f t) :
    ∀ t, 0 ≤ ewmNum a f t
  | 0 => hf 0
  | t + 1 => by
    have h := ewmNum_nonneg ha hf t
    have h1 : 0 ≤ (1 - a) * ewmNum a f t := mul_nonneg (by linarith) h
    have h2 := hf (t + 1)
    simp only [ewmNum]
    linarith

theorem gainAt_nonneg (closes : List ℚ) (t : ℕ) : 0 ≤ gainAt closes t := by
  unfold gainAt
  split_ifs with h1 h2
  · exact le_refl 0
  · exact le_of_lt h2
  · exact le_refl 0

theorem lossAt_nonneg (closes : List ℚ) (t : ℕ) : 0 ≤ lossAt closes t := by
  unfold lossAt
  split_ifs with h1 h2
  · exact le_refl 0
  · exact abs_nonneg _
  · exact le_refl 0

/-- C3: at every bar of the series the RSI value lies in [0, 100], and it is
exactly 100 at every bar where the smoothed loss average is 0. -/
theorem rsi_bounds (p : ℕ) (closes : List ℚ) (t : ℕ) (hp : 1 ≤ p) (ht : t < closes.length) :
    (0 ≤ rsiAt p closes t ∧ rsiAt p closes t ≤ 100) ∧
    (ewmMean (1 / p) (lossAt closes) t = 0 → rsiAt p closes t = 100) := by
  have ha : (1 : ℚ) / p ≤ 1 := by
    rcases Nat.eq_zero_or_pos p with h | h
    · simp [h]
    · have hp1 : (1 : ℚ) ≤ (p : ℚ) := by exact_mod_cast h
      rw [div_le_one (by linarith)]
      exact hp1
  constructor
  · unfold rsiAt
    split_ifs with h0
    · norm_num
    · have hLossNonneg : 0 ≤ ewmMean (1 / p) (lossAt closes) t :=
        div_nonneg (ewmNum_nonneg ha (lossAt_nonneg closes) t) (ewmDen_pos ha t).le
      have hLossPos : 0 < ewmMean (1 / p) (lossAt closes) t :=
        lt_of_le_of_ne hLossNonneg (Ne.symm h0)
      have hWinNonneg : 0 ≤ ewmMean (1 / p) (gainAt closes) t :=
        div_nonneg (ewmNum_nonneg ha (gainAt_nonneg closes) t) (ewmDen_pos ha t).le
      have hrs : 0 ≤ ewmMean (1 / p) (gainAt closes) t / ewmMean (1 / p) (lossAt closes) t :=
        div_nonneg hWinNonneg hLossPos.le
      have hdenom : (1 : ℚ) ≤ 1 + ewmMean (1 / p) (gainAt closes) t / ewmMean (1 / p) (lossAt closes) t := by
        linarith
      have hfrac_pos : 0 < (100 : ℚ) / (1 + ewmMean (1 / p) (gainAt closes) t / ewmMean (1 / p) (lossAt closes) t) :=
        div_pos (by norm_num) (by linarith)
      have hfrac_le : (100 : ℚ) / (1 + ewmMean (1 / p) (gainAt closes) t / ewmMean (1 / p) (lossAt closes) t) ≤ 100 :=
        div_le_self (by norm_num) hdenom
      constructor <;> linarith
  · intro h
    unfold rsiAt
    rw [if_pos h]

/-- Witness for C3 at p = 14, closes = [10, 11], t = 1. -/
theorem rsi_bounds_witness :
    (0 ≤ rsiAt 14 [10, 11] 1 ∧ rsiAt 14 [10, 11] 1 ≤ 100) ∧
    (ewmMean (1 / 14) (lossAt [10, 11]) 1 = 0 → rsiAt 14 [10, 11] 1 = 100) :=
  rsi_bounds 14 [10, 11] 1 (by norm_num) (by norm_num)

/- ### Volume-flow accumulator — `obv_calculator.OBVCalculator._calculate_obv_values`

The dataframe's null volumes are first filled with 0 (`nz(volume)`); if the
filled volume column sums to 0 (this covers the empty series as well) the
function returns the dataframe *without* an `obv` column, so no accumulator
value exists for any bar.  Otherwise `obv[0] = 106100` (the fixed positive
base) and for t > 0 the volume is added on a strict close increase,
subtracted on a strict close decrease, and the value is carried otherwise. -/

/-- `df['volume'].fillna(0)` for one row. -/
def fillVol (c : Candle) : ℚ :=
  c.volume.getD 0

/-- Accumulator tail: `a` is the running `obv_value`, `pc` the previous close. -/
def obvFrom (a pc : ℚ) : List Candle → List ℚ
  | [] => []
  | c :: rest =>
    (if c.close - pc > 0 then a + fillVol c
     else if c.close - pc < 0 then a - fillVol c
     else a) ::
      obvFrom
        (if c.close - pc > 0 then a + fillVol c
         else if c.close - pc < 0 then a - fillVol c
         else a)
        c.close rest

/-- The `obv` column: `none` when the function returned early (empty frame or
all-zero volume), otherwise the accumulator value for every bar. -/
def obvValues (rows : List Candle) : Option (List ℚ) :=
  match rows with
  | [] => none
  | r :: rest =>
    if (rows.map fillVol).sum = 0 then none
    else some (106100 :: obvFrom 106100 r.close rest)

/-- OBV rows persisted by `_save_obv_data`: one per bar carrying an `obv`
value; when no `obv` column exists the row iteration fails before any insert,
so nothing is persisted. -/
def savedObvRecords (rows : List Candle) : List ℚ :=
  match obvValues rows with
  | none => []
  | some l => l

theorem obvFrom_chain {a pc : ℚ} {rest : List Candle}
    (hv : ∀ r ∈ rest, 0 ≤ fillVol r)
    (hc : List.Chain' (· ≤ ·) (pc :: rest.map Candle.close)) :
    List.Chain' (· ≤ ·) (a :: obvFrom a pc rest) := by
  induction rest generalizing a pc with
  | nil => simp [obvFrom]
  | cons c tl ih =>
    have hpc : pc ≤ c.close := by
      have := List.chain'_cons.mp hc
      simpa using this.1
    have hctl : List.Chain' (· ≤ ·) (c.close :: tl.map Candle.close) := by
      have := List.chain'_cons.mp hc
      simpa using this.2
    have hvc : 0 ≤ fillVol c := hv c (by simp)
    have hvtl : ∀ r ∈ tl, 0 ≤ fillVol r := fun r hr => hv r (by simp [hr])
    have hstep : a ≤ (if c.close - pc > 0 then a + fillVol c
        else if c.close - pc < 0 then a - fillVol c else a) := by
      split_ifs with h1 h2
      · linarith
      · linarith
      · exact le_refl a
    simp only [obvFrom]
    exact List.chain'_cons.mpr ⟨hstep, ih hvtl hctl⟩

/-- C4 (amended): for every candle series whose filled volumes do not sum to
zero (the code's guard — under the data-model invariant of non-negative
volumes this means some volume is nonzero), the accumulator exists and its
value at t = 0 is the fixed base 106100; if additionally every volume is
non-negative and the close series is non-decreasing across the whole
series, the accumulator sequence is non-decreasing. -/
theorem obv_base_and_monotone (rows : List Candle)
    (hsum : (rows.map fillVol).sum ≠ 0) :
    ∃ obv, obvValues rows = some obv ∧ obv.head? = some 106100 ∧
      ((∀ r ∈ rows, 0 ≤ fillVol r) → List.Chain' (· ≤ ·) (rows.map Candle.close) →
        List.Chain' (· ≤ ·) obv) := by
  cases rows with
  | nil => simp at hsum
  | cons r rest =>
    refine ⟨106100 :: obvFrom 106100 r.close rest, ?_, rfl, ?_⟩
    · simp only [obvValues, if_neg hsum]
    · intro hv hc
      exact obvFrom_chain (fun x hx => hv x (by simp [hx])) (by simpa using hc)

/-- Witness for C4 (amended) on two series: closes [10, 9] with volumes
[5, 3] (decreasing close — existence and the base row still hold), and
closes [10, 11] with volumes [5, 2] (monotone case). -/
theorem obv_base_and_monotone_witness :
    (∃ obv, obvValues [⟨0, 0, 0, 10, some 5⟩, ⟨0, 0, 0, 9, some 3⟩] = some obv ∧
      obv.head? = some 106100) ∧
    (∃ obv, obvValues [⟨0, 0, 0, 10, some 5⟩, ⟨0, 0, 0, 11, some 2⟩] = some obv ∧
      obv.head? = some 106100 ∧ List.Chain' (· ≤ ·) obv) := by
  constructor
  · obtain ⟨obv, h1, h2, _⟩ :=
      obv_base_and_monotone [⟨0, 0, 0, 10, some 5⟩, ⟨0, 0, 0, 9, some 3⟩]
        (by norm_num [fillVol])
    exact ⟨obv, h1, h2⟩
  · obtain ⟨obv, h1, h2, h3⟩ :=
      obv_base_and_monotone [⟨0, 0, 0, 10, some 5⟩, ⟨0, 0, 0, 11, some 2⟩]
        (by norm_num [fillVol])
    exact ⟨obv, h1, h2, h3 (by norm_num [fillVol]) (by norm_num)⟩

/-- C4 counterexample: on the one-bar series with volume 0 the computation
produces no accumulator column at all, so there is no value equal to the
base constant at t = 0. -/
theorem obv_counterexample :
    obvValues [⟨0, 0, 0, 10, some 0⟩] = none := by
  norm_num [obvValues, fillVol]

/-- C10: for every non-empty series whose volumes are all zero or null, the
OBV computation yields no accumulator value for any bar, and no OBV row is
persisted. -/
theorem obv_zero_volume_no_rows (rows : List Candle) (hne : rows ≠ [])
    (hz : ∀ r ∈ rows, fillVol r = 0) :
    obvValues rows = none ∧ savedObvRecords rows = [] := by
  have hsum : (rows.map fillVol).sum = 0 := by
    apply List.sum_eq_zero
    intro x hx
    obtain ⟨r, hr, rfl⟩ := List.mem_map.mp hx
    exact hz r hr
  have hnone : obvValues rows = none := by
    match rows, hne with
    | r :: rest, _ => simp only [obvValues, if_pos hsum]
  exact ⟨hnone, by simp [savedObvRecords, hnone]⟩

/-- Witness for C10 on a two-bar series with volumes 0 and null. -/
theorem obv_zero_volume_no_rows_witness :
    obvValues [⟨0, 0, 0, 10, some 0⟩, ⟨0, 0, 0, 11, none⟩] = none ∧
    savedObvRecords [⟨0, 0, 0, 10, some 0⟩, ⟨0, 0, 0, 11, none⟩] = [] :=
  obv_zero_volume_no_rows [⟨0, 0, 0, 10, some 0⟩, ⟨0, 0, 0, 11, none⟩]
    (by simp) (by simp [fillVol])

/- ### Pivot levels — `pivot_calculator.PivotCalculator._calculate_pivot_values`

For a candle whose previous reference period had high H, low L, close C:
`PP = (H + L + C) / 3` and the resistance/support levels below.  The first
candle (no previous period, PP is NaN) is skipped by `_save_pivot_data`. -/

/-- One row of the `pivot_data` table. -/
structure PivotRow where
  pp : ℚ
  r1 : ℚ
  r2 : ℚ
  r3 : ℚ
  r4 : ℚ
  r5 : ℚ
  s1 : ℚ
  s2 : ℚ
  s3 : ℚ
  s4 : ℚ
  s5 : ℚ
deriving DecidableEq, Repr

/-- `PP = (High.shift(1) + Low.shift(1) + Close.shift(1)) / 3`. -/
def pivotPP (H L C : ℚ) : ℚ :=
  (H + L + C) / 3

/-- All pivot levels computed from the previous period's H, L, C. -/
def pivotLevels (H L C : ℚ) : PivotRow :=
  { pp := pivotPP H L C
    r1 := 2 * pivotPP H L C - L
    r2 := pivotPP H L C + (H - L)
    r3 := H + 2 * (pivotPP H L C - L)
    r4 := pivotPP H L C * 3 + (H - 3 * L)
    r5 := pivotPP H L C * 4 + (H - 4 * L)
    s1 := 2 * pivotPP H L C - H
    s2 := pivotPP H L C - (H - L)
    s3 := L - 2 * (H - pivotPP H L C)
    s4 := pivotPP H L C * 3 - (3 * H - L)
    s5 := pivotPP H L C * 4 - (4 * H - L) }

/-- C5 counterexample: with H = 1 > L = 0 but C = 100 (a close outside the
[L, H] band, which no validation rules out), S1 exceeds PP, so the claimed
ordering fails even though H > L. -/
theorem pivot_ordering_counterexample :
    (0 : ℚ) < 1 ∧ ¬ (pivotLevels 1 0 100).s1 ≤ (pivotLevels 1 0 100).pp := by
  norm_num [pivotLevels, pivotPP]

/-- C5 (amended): whenever the reference period satisfies H > L and its close
lies between them (L ≤ C ≤ H), the levels are ordered
`S3 ≤ S2 ≤ S1 ≤ PP ≤ R1 ≤ R2 ≤ R3`. -/
theorem pivot_ordering (H L C : ℚ) (hHL : L < H) (hLC : L ≤ C) (hCH : C ≤ H) :
    (pivotLevels H L C).s3 ≤ (pivotLevels H L C).s2 ∧
    (pivotLevels H L C).s2 ≤ (pivotLevels H L C).s1 ∧
    (pivotLevels H L C).s1 ≤ (pivotLevels H L C).pp ∧
    (pivotLevels H L C).pp ≤ (pivotLevels H L C).r1 ∧
    (pivotLevels H L C).r1 ≤ (pivotLevels H L C).r2 ∧
    (pivotLevels H L C).r2 ≤ (pivotLevels H L C).r3 := by
  simp only [pivotLevels, pivotPP]
  refine ⟨?_, ?_, ?_, ?_, ?_, ?_⟩ <;> linarith

/-- Witness for C5 (amended) at H = 2, L = 1, C = 3/2. -/
theorem pivot_ordering_witness :
    (pivotLevels 2 1 (3/2)).s3 ≤ (pivotLevels 2 1 (3/2)).s2 ∧
    (pivotLevels 2 1 (3/2)).s2 ≤ (pivotLevels 2 1 (3/2)).s1 ∧
    (pivotLevels 2 1 (3/2)).s1 ≤ (pivotLevels 2 1 (3/2)).pp ∧
    (pivotLevels 2 1 (3/2)).pp ≤ (pivotLevels 2 1 (3/2)).r1 ∧
    (pivotLevels 2 1 (3/2)).r1 ≤ (pivotLevels 2 1 (3/2)).r2 ∧
    (pivotLevels 2 1 (3/2)).r2 ≤ (pivotLevels 2 1 (3/2)).r3 :=
  pivot_ordering 2 1 (3/2) (by norm_num) (by norm_num) (by norm_num)

/- ### Candle pattern classifier — `candle_pattern_calculator.CandlePatternCalculator._calculate_patterns`

The loop runs over bars i = 1..n-1 (bar 0 keeps the initialised empty
label).  Inside one iteration three blocks run in sequence, each overwriting
`df.loc[i, 'pattern']` when one of its conditions matches: the single-candle
chain, the two-candle chain (engulfing/tweezer), and — for i > 1 — the
three-candle chain (morning/evening star). -/

/-- `body_size = abs(close - open)`. -/
def bodySize (c : Candle) : ℚ :=
  |c.close - c.open_price|

/-- `upper_wick = high - max(open, close)`. -/
def upperWick (c : Candle) : ℚ :=
  c.high - max c.open_price c.close

/-- `lower_wick = min(open, close) - low`. -/
def lowerWick (c : Candle) : ℚ :=
  min c.open_price c.close - c.low

/-- `total_range = high - low`. -/
def totalRange (c : Candle) : ℚ :=
  c.high - c.low

/-- `is_bullish = close > open`. -/
def isBullish (c : Candle) : Prop :=
  c.open_price < c.close

instance (c : Candle) : Decidable (isBullish c) :=
  inferInstanceAs (Decidable (c.open_price < c.close))

/-- `is_doji = body_size < (high - low) * 0.1`. -/
def isDoji (c : Candle) : Prop :=
  bodySize c < (c.high - c.low) * (1/10)

instance (c : Candle) : Decidable (isDoji c) :=
  inferInstanceAs (Decidable (bodySize c < (c.high - c.low) * (1/10)))

/-- `body_ratio = body_size / total_range`. -/
def bodyFrac (c : Candle) : ℚ :=
  bodySize c / totalRange c

/-- `upper_wick_ratio = upper_wick / total_range`. -/
def upWickFrac (c : Candle) : ℚ :=
  upperWick c / totalRange c

/-- `lower_wick_ratio = lower_wick / total_range`. -/
def lowWickFrac (c : Candle) : ℚ :=
  lowerWick c / totalRange c

/-- The single-candle rule chain of the classifier (empty string = no match). -/
def oneBarPattern (c : Candle) : String :=
  if isDoji c then "Doji"
  else if isBullish c then
    if lowWickFrac c > 6/10 ∧ bodyFrac c < 3/10 then "Hammer"
    else if bodyFrac c > 8/10 ∧ upWickFrac c < 1/10 ∧ lowWickFrac c < 1/10 then "Bullish Marubozu"
    else if bodyFrac c > 5/10 ∧ lowWickFrac c > 3/10 then "Inverted Hammer"
    else ""
  else
    if upWickFrac c > 6/10 ∧ bodyFrac c < 3/10 then "Shooting Star"
    else if bodyFrac c > 8/10 ∧ upWickFrac c < 1/10 ∧ lowWickFrac c < 1/10 then "Bearish Marubozu"
    else if bodyFrac c > 5/10 ∧ upWickFrac c > 3/10 then "Hanging Man"
    else ""

/-- The two-candle rule chain (engulfing, tweezer); `none` = no match. -/
def twoBarPattern (prev curr : Candle) : Option String :=
  if isBullish prev ∧ ¬ isBullish curr ∧ curr.close < prev.open_price ∧
      curr.open_price > prev.close ∧ bodySize curr > bodySize prev * (3/2) then
    some "Bearish Engulfing"
  else if ¬ isBullish prev ∧ isBullish curr ∧ curr.close > prev.open_price ∧
      curr.open_price < prev.close ∧ bodySize curr > bodySize prev * (3/2) then
    some "Bullish Engulfing"
  else if isBullish prev ∧ ¬ isBullish curr ∧
      |prev.high - curr.high| < totalRange curr * (1/10) then
    some "Tweezer Top"
  else if ¬ isBullish prev ∧ isBullish curr ∧
      |prev.low - curr.low| < totalRange curr * (1/10) then
    some "Tweezer Bottom"
  else none

/-- The three-candle rule chain (morning/evening star); `none` = no match. -/
def threeBarPattern (c2 c1 c0 : Candle) : Option String :=
  if ¬ isBullish c2 ∧ ¬ isBullish c1 ∧ isBullish c0 ∧ c0.close > c1.open_price ∧
      bodySize c1 < bodySize c2 * (3/10) then
    some "Morning Star"
  else if isBullish c2 ∧ isBullish c1 ∧ ¬ isBullish c0 ∧ c0.close < c1.open_price ∧
      bodySize c1 < bodySize c2 * (3/10) then
    some "Evening Star"
  else none


/-- The final label of bar i, mirroring the imperative loop body: the
single-candle chain writes the label first, the two-candle chain overwrites
it when one of its rules matches, and for i > 1 the three-candle chain
overwrites it when one of its rules matches.  Bar 0 keeps the initialised
empty label (the loop starts at 1). -/
def patternAt (cs : List Candle) (i : ℕ) : String :=
  if i = 0 then ""
  else if 1 < i then
    Option.getD (threeBarPattern (candleD cs (i - 2)) (candleD cs (i - 1)) (candleD cs i))
      (Option.getD (twoBarPattern (candleD cs (i - 1)) (candleD cs i))
        (oneBarPattern (candleD cs i)))
  else
    Option.getD (twoBarPattern (candleD cs (i - 1)) (candleD cs i))
      (oneBarPattern (candleD cs i))

/-- C6 counterexample: on this two-bar series, bar 1 satisfies the Doji rule
(the first rule of the table), yet its final label is "Tweezer Bottom" — a
later two-candle rule changed the label of a bar an earlier rule had
already matched. -/
theorem pattern_overwrite_counterexample :
    isDoji (candleD [⟨11, 23/2, 19/2, 10, none⟩, ⟨219/20, 23/2, 19/2, 11, none⟩] 1) ∧
    oneBarPattern (candleD [⟨11, 23/2, 19/2, 10, none⟩, ⟨219/20, 23/2, 19/2, 11, none⟩] 1) = "Doji" ∧
    patternAt [⟨11, 23/2, 19/2, 10, none⟩, ⟨219/20, 23/2, 19/2, 11, none⟩] 1 = "Tweezer Bottom" := by
  refine ⟨?_, ?_, ?_⟩
  · norm_num [isDoji, bodySize, candleD, abs_of_pos]
  · norm_num [oneBarPattern, candleD, isDoji, isBullish, bodySize, abs_of_pos]
  · norm_num [patternAt, twoBarPattern, oneBarPattern, candleD, isDoji, isBullish, bodySize,
      upperWick, lowerWick, totalRange, bodyFrac, upWickFrac, lowWickFrac, abs_of_pos, abs_of_neg]

/-- C6 (amended): the rule table is applied with overwrite semantics across
the three window-size groups — the final label is the three-candle match
when one exists (and i > 1), otherwise the two-candle match when one
exists, otherwise the single-candle label; within each group the first
matching rule of its chain wins. -/
theorem pattern_precedence (cs : List Candle) (i : ℕ) (hi : 1 ≤ i) :
    (twoBarPattern (candleD cs (i - 1)) (candleD cs i) = none →
      (1 < i → threeBarPattern (candleD cs (i - 2)) (candleD cs (i - 1)) (candleD cs i) = none) →
      patternAt cs i = oneBarPattern (candleD cs i)) ∧
    (∀ s, twoBarPattern (candleD cs (i - 1)) (candleD cs i) = some s →
      (1 < i → threeBarPattern (candleD cs (i - 2)) (candleD cs (i - 1)) (candleD cs i) = none) →
      patternAt cs i = s) ∧
    (∀ s, 1 < i → threeBarPattern (candleD cs (i - 2)) (candleD cs (i - 1)) (candleD cs i) = some s →
      patternAt cs i = s) := by
  have h0 : ¬ i = 0 := by omega
  refine ⟨?_, ?_, ?_⟩
  · intro h2 h3
    by_cases hgt : 1 < i
    · simp [patternAt, if_neg h0, if_pos hgt, h2, h3 hgt]
    · simp [patternAt, if_neg h0, if_neg hgt, h2]
  · intro s h2 h3
    by_cases hgt : 1 < i
    · simp [patternAt, if_neg h0, if_pos hgt, h2, h3 hgt]
    · simp [patternAt, if_neg h0, if_neg hgt, h2]
  · intro s hgt h3
    simp [patternAt, if_neg h0, if_pos hgt, h3]

/-- Witness for C6 (amended): a two-bar series where only the two-candle
group matches (label "Tweezer Bottom"), a flat two-bar series where only the
single-candle group matches (label "Doji"), and a three-bar morning-star
series where the three-candle group decides the label. -/
theorem pattern_precedence_witness :
    patternAt [⟨11, 23/2, 19/2, 10, none⟩, ⟨219/20, 23/2, 19/2, 11, none⟩] 1 = "Tweezer Bottom" ∧
    patternAt [⟨1, 2, 0, 1, none⟩, ⟨1, 2, 0, 1, none⟩] 1 =
      oneBarPattern (candleD [⟨1, 2, 0, 1, none⟩, ⟨1, 2, 0, 1, none⟩] 1) ∧
    patternAt [⟨10, 10, 8, 8, none⟩, ⟨8, 8, 15/2, 15/2, none⟩, ⟨15/2, 9, 15/2, 9, none⟩] 2 =
      "Morning Star" := by
  refine ⟨?_, ?_, ?_⟩
  · exact (pattern_precedence [⟨11, 23/2, 19/2, 10, none⟩, ⟨219/20, 23/2, 19/2, 11, none⟩] 1
      (by norm_num)).2.1 "Tweezer Bottom"
      (by norm_num [twoBarPattern, candleD, isBullish, bodySize, totalRange, abs_of_pos, abs_of_neg])
      (fun h => absurd h (by norm_num))
  · exact (pattern_precedence [⟨1, 2, 0, 1, none⟩, ⟨1, 2, 0, 1, none⟩] 1 (by norm_num)).1
      (by norm_num [twoBarPattern, candleD, isBullish])
      (fun h => absurd h (by norm_num))
  · exact (pattern_precedence [⟨10, 10, 8, 8, none⟩, ⟨8, 8, 15/2, 15/2, none⟩,
        ⟨15/2, 9, 15/2, 9, none⟩] 2 (by norm_num)).2.2 "Morning Star" (by norm_num)
      (by norm_num [threeBarPattern, candleD, isBullish, bodySize, abs_of_pos, abs_of_neg])

/- ### Chandelier Exit — `ce_calculator.CECalculator._calculate_ce_values`

True range, Wilder-smoothed ATR (seeded with the simple mean of the first
`length` true ranges, multiplied by `mult`), rolling highest/lowest close
over `length` bars, and the PineScript ratchet/direction rules evaluated
with the previous bar's close and previous bar's stops.  Valid rows exist
from bar `length` on; row k below is the record the loop writes at absolute
bar index `length + k`. -/

/-- True range of bar i; at i = 0 the shifted close is NaN and the pandas
row-wise max ignores it, leaving `high - low`. -/
def trAt (cs : List Candle) (i : ℕ) : ℚ :=
  if i = 0 then (candleD cs 0).high - (candleD cs 0).low
  else
    max ((candleD cs i).high - (candleD cs i).low)
      (max |(candleD cs i).high - (candleD cs (i - 1)).close|
        |(candleD cs i).low - (candleD cs (i - 1)).close|)

/-- `result['tr'].iloc[:length].mean()` — the first ATR value, written at
absolute index `length - 1`. -/
def atrSeed (p : ℕ) (cs : List Candle) : ℚ :=
  (((List.range (min p cs.length)).map (trAt cs)).sum) / (min p cs.length)

/-- Wilder ATR: entry k is the ATR at absolute index `p - 1 + k`;
`atr = prev_atr * (1 - 1/length) + tr * (1/length)`. -/
def atrRec (p : ℕ) (cs : List Candle) : ℕ → ℚ
  | 0 => atrSeed p cs
  | k + 1 => atrRec p cs k * (1 - 1/(p : ℚ)) + trAt cs (p + k) * (1/(p : ℚ))

/-- Maximum of `f` over the index window `[a, a + k]`. -/
def rangeMax (f : ℕ → ℚ) (a : ℕ) : ℕ → ℚ
  | 0 => f a
  | k + 1 => max (rangeMax f a k) (f (a + k + 1))

/-- Minimum of `f` over the index window `[a, a + k]`. -/
def rangeMin (f : ℕ → ℚ) (a : ℕ) : ℕ → ℚ
  | 0 => f a
  | k + 1 => min (rangeMin f a k) (f (a + k + 1))

/-- One row of the Chandelier Exit output (`long_stop`, `short_stop`, `dir`). -/
structure CERow where
  long_stop : ℚ
  short_stop : ℚ
  dir : ℤ
deriving DecidableEq, Repr

/-- Raw long stop at bar i: highest close of the trailing `length` bars
minus the multiplied ATR. -/
def ceRawLong (p : ℕ) (m : ℚ) (cs : List Candle) (i : ℕ) : ℚ :=
  rangeMax (fun j => (candleD cs j).close) (i + 1 - p) (p - 1) - atrRec p cs (i + 1 - p) * m

/-- Raw short stop at bar i: lowest close of the trailing `length` bars
plus the multiplied ATR. -/
def ceRawShort (p : ℕ) (m : ℚ) (cs : List Candle) (i : ℕ) : ℚ :=
  rangeMin (fun j => (candleD cs j).close) (i + 1 - p) (p - 1) + atrRec p cs (i + 1 - p) * m

/-- Loop body for bar i > length: ratchet the stops against the previous
row using the previous bar's close, then update the direction. -/
def ceStep (p : ℕ) (m : ℚ) (cs : List Candle) (i : ℕ) (prev : CERow) : CERow :=
  { long_stop :=
      if (candleD cs (i - 1)).close > prev.long_stop then
        max (ceRawLong p m cs i) prev.long_stop
      else ceRawLong p m cs i
    short_stop :=
      if (candleD cs (i - 1)).close < prev.short_stop then
        min (ceRawShort p m cs i) prev.short_stop
      else ceRawShort p m cs i
    dir :=
      if (candleD cs i).close > prev.short_stop then 1
      else if (candleD cs i).close < prev.long_stop then -1
      else prev.dir }

/-- Chandelier Exit record written at absolute bar index `length + k`: the
first valid bar (k = 0, i = length) takes the raw stops and direction 1,
and every later bar applies `ceStep`. -/
def ceRow (p : ℕ) (m : ℚ) (cs : List Candle) : ℕ → CERow
  | 0 => { long_stop := ceRawLong p m cs p, short_stop := ceRawShort p m cs p, dir := 1 }
  | k + 1 => ceStep p m cs (p + k + 1) (ceRow p m cs k)

/-- C2: between consecutive valid bars, while the direction stays +1 and the
previous bar's close is above the previous bar's long stop, the long stop
never decreases (it is `max(candidate, prev)`), and symmetrically, while the
direction stays -1 and the previous close is below the previous short stop,
the short stop never increases. -/
theorem ce_ratchet (p : ℕ) (m : ℚ) (cs : List Candle) (k : ℕ) :
    ((ceRow p m cs k).dir = 1 → (ceRow p m cs (k + 1)).dir = 1 →
      (candleD cs (p + k)).close > (ceRow p m cs k).long_stop →
      (ceRow p m cs k).long_stop ≤ (ceRow p m cs (k + 1)).long_stop) ∧
    ((ceRow p m cs k).dir = -1 → (ceRow p m cs (k + 1)).dir = -1 →
      (candleD cs (p + k)).close < (ceRow p m cs k).short_stop →
      (ceRow p m cs (k + 1)).short_stop ≤ (ceRow p m cs k).short_stop) := by
  have hidx : p + k + 1 - 1 = p + k := by omega
  constructor
  · intro _ _ hgt
    show (ceRow p m cs k).long_stop ≤ (ceStep p m cs (p + k + 1) (ceRow p m cs k)).long_stop
    simp only [ceStep, hidx]
    rw [if_pos hgt]
    exact le_max_right _ _
  · intro _ _ hlt
    show (ceStep p m cs (p + k + 1) (ceRow p m cs k)).short_stop ≤ (ceRow p m cs k).short_stop
    simp only [ceStep, hidx]
    rw [if_pos hlt]
    exact min_le_right _ _

/-- Three flat candles: direction stays +1 and the previous close sits above
the previous long stop. -/
def ceSeriesA : List Candle :=
  [⟨0, 2, 1, 3/2, none⟩, ⟨0, 2, 1, 3/2, none⟩, ⟨0, 2, 1, 3/2, none⟩]

/-- A drop after two flat candles: direction flips to -1 and stays there,
with the previous close below the previous short stop. -/
def ceSeriesB : List Candle :=
  [⟨0, 11, 9, 10, none⟩, ⟨0, 11, 9, 10, none⟩, ⟨0, 6, 5, 11/2, none⟩, ⟨0, 6, 5, 11/2, none⟩]

/-- Witness for C2: the long side on `ceSeriesA` (p = 1, m = 1, k = 0) and
the short side on `ceSeriesB` (p = 1, m = 1, k = 1). -/
theorem ce_ratchet_witness :
    (ceRow 1 1 ceSeriesA 0).long_stop ≤ (ceRow 1 1 ceSeriesA 1).long_stop ∧
    (ceRow 1 1 ceSeriesB 2).short_stop ≤ (ceRow 1 1 ceSeriesB 1).short_stop := by
  constructor
  · exact (ce_ratchet 1 1 ceSeriesA 0).1
      (by norm_num [ceRow, ceStep, ceRawLong, ceRawShort, rangeMax, rangeMin, atrRec, atrSeed,
        trAt, candleD, ceSeriesA, sup_eq_max, inf_eq_min, max_def, min_def, abs_of_pos,
        abs_of_neg, abs_of_nonneg])
      (by norm_num [ceRow, ceStep, ceRawLong, ceRawShort, rangeMax, rangeMin, atrRec, atrSeed,
        trAt, candleD, ceSeriesA, sup_eq_max, inf_eq_min, max_def, min_def, abs_of_pos,
        abs_of_neg, abs_of_nonneg])
      (by norm_num [ceRow, ceStep, ceRawLong, ceRawShort, rangeMax, rangeMin, atrRec, atrSeed,
        trAt, candleD, ceSeriesA, sup_eq_max, inf_eq_min, max_def, min_def, abs_of_pos,
        abs_of_neg, abs_of_nonneg])
  · exact (ce_ratchet 1 1 ceSeriesB 1).2
      (by norm_num [ceRow, ceStep, ceRawLong, ceRawShort, rangeMax, rangeMin, atrRec, atrSeed,
        trAt, candleD, ceSeriesB, sup_eq_max, inf_eq_min, max_def, min_def, abs_of_pos,
        abs_of_neg, abs_of_nonneg])
      (by norm_num [ceRow, ceStep, ceRawLong, ceRawShort, rangeMax, rangeMin, atrRec, atrSeed,
        trAt, candleD, ceSeriesB, sup_eq_max, inf_eq_min, max_def, min_def, abs_of_pos,
        abs_of_neg, abs_of_nonneg])
      (by norm_num [ceRow, ceStep, ceRawLong, ceRawShort, rangeMax, rangeMin, atrRec, atrSeed,
        trAt, candleD, ceSeriesB, sup_eq_max, inf_eq_min, max_def, min_def, abs_of_pos,
        abs_of_neg, abs_of_nonneg])

/- ### Fetch-start resolution — `main.fetch_historical_data` (start_date=None path)
with `db_handler.DBHandler.get_last_candle_date`

`get_last_candle_date` selects the latest stored timestamp for the key and
*subtracts one interval* ("to ensure we get the last candle again"),
dispatching on the interval-string suffix; an interval matching no branch
(notably the monthly timeframe "1M", whose uppercase M is not the lowercase
'm' branch) falls through to None.  `fetch_historical_data` then uses that
date as the fetch start — unless it falls on the current UTC day, in which
case the start is moved to the start of the day — and falls back to the
configured default start when the store gave no date. -/

/-- An interval string `"<count><unit>"` (e.g. "1h", "4h", "1d", "1w", "1M"),
already split into its numeric prefix and suffix character. -/
structure TfInterval where
  count : ℕ
  unit : Char
deriving DecidableEq, Repr

/-- Milliseconds subtracted per interval by `get_last_candle_date`:
hours/days/weeks literally, lowercase 'm' as 30 days per unit; any other
suffix (e.g. 'M') matches no branch. -/
def intervalDeltaMs (iv : TfInterval) : Option ℤ :=
  if iv.unit = 'h' then some ((iv.count : ℤ) * 3600000)
  else if iv.unit = 'd' then some ((iv.count : ℤ) * 86400000)
  else if iv.unit = 'w' then some ((iv.count : ℤ) * 604800000)
  else if iv.unit = 'm' then some ((iv.count : ℤ) * 30 * 86400000)
  else none

/-- `ORDER BY timestamp DESC LIMIT 1` over the stored timestamps of one
(ticker, timeframe) key. -/
def latestTimestamp (rows : List ℤ) : Option ℤ :=
  rows.max?

/-- `db_handler.get_last_candle_date`: latest stored timestamp minus one
interval; None when the store is empty or the suffix matches no branch. -/
def get_last_candle_date (rows : List ℤ) (iv : TfInterval) : Option ℤ :=
  match latestTimestamp rows, intervalDeltaMs iv with
  | some ts, some d => some (ts - d)
  | _, _ => none

/-- Milliseconds per UTC day. -/
def msPerDay : ℤ := 86400000

/-- The UTC calendar day of a millisecond timestamp (`datetime.date()`). -/
def dayIndex (t : ℤ) : ℤ :=
  Int.fdiv t msPerDay

/-- Midnight of the current UTC day
(`datetime.now(utc).replace(hour=0, minute=0, second=0, microsecond=0)`). -/
def dayStart (t : ℤ) : ℤ :=
  Int.fdiv t msPerDay * msPerDay

/-- The resolved fetch start of `main.fetch_historical_data` when no
explicit start date is passed. -/
def resolveFetchStart (rows : List ℤ) (iv : TfInterval) (now defaultStart : ℤ) : ℤ :=
  match get_last_candle_date rows iv with
  | some lastDate => if dayIndex lastDate = dayIndex now then dayStart now else lastDate
  | none => defaultStart

/-- C7 counterexample: with one stored hourly candle at t = 3600000000 ms
and a much later `now`, the resolved fetch start is 3596400000 — one hour
*before* the latest stored candle's timestamp, not equal to it. -/
theorem fetch_start_counterexample :
    latestTimestamp [3600000000] = some 3600000000 ∧
    resolveFetchStart [3600000000] ⟨1, 'h'⟩ 6192000000 0 = 3596400000 ∧
    (3596400000 : ℤ) ≠ 3600000000 := by
  refine ⟨by decide, by decide, by decide⟩

/-- C7 (amended): with no stored rows — or an interval suffix matching no
branch, such as the monthly "1M" — the fetch start is the configured
default; otherwise it is the latest stored timestamp minus one interval,
moved back to midnight of the current UTC day when that date falls on the
current day. -/
theorem fetch_start_resolution (rows : List ℤ) (iv : TfInterval) (now defaultStart : ℤ) :
    (latestTimestamp rows = none →
      resolveFetchStart rows iv now defaultStart = defaultStart) ∧
    (intervalDeltaMs iv = none →
      resolveFetchStart rows iv now defaultStart = defaultStart) ∧
    (∀ ts d, latestTimestamp rows = some ts → intervalDeltaMs iv = some d →
      resolveFetchStart rows iv now defaultStart =
        if dayIndex (ts - d) = dayIndex now then dayStart now else ts - d) := by
  refine ⟨?_, ?_, ?_⟩
  · intro h
    simp [resolveFetchStart, get_last_candle_date, h]
  · intro h
    rcases hl : latestTimestamp rows with _ | ts <;>
      simp [resolveFetchStart, get_last_candle_date, hl, h]
  · intro ts d h1 h2
    simp [resolveFetchStart, get_last_candle_date, h1, h2]

/-- Witness for C7 (amended): empty store, unmatched monthly suffix, and the
stored hourly candle of the counterexample. -/
theorem fetch_start_resolution_witness :
    resolveFetchStart [] ⟨1, 'h'⟩ 5 7 = 7 ∧
    resolveFetchStart [100] ⟨1, 'M'⟩ 5 7 = 7 ∧
    resolveFetchStart [3600000000] ⟨1, 'h'⟩ 6192000000 0 =
      if dayIndex (3600000000 - 3600000) = dayIndex 6192000000 then dayStart 6192000000
      else 3600000000 - 3600000 :=
  ⟨(fetch_start_resolution [] ⟨1, 'h'⟩ 5 7).1 (by decide),
   (fetch_start_resolution [100] ⟨1, 'M'⟩ 5 7).2.1 (by decide),
   (fetch_start_resolution [3600000000] ⟨1, 'h'⟩ 6192000000 0).2.2 3600000000 3600000
     (by decide) (by decide)⟩

/- ### Page fetch and persistence — `binance_client.BinanceClient.get_klines`
and `db_handler.DBHandler.save_klines`

`get_klines` loops: a transport failure increments the retry counter, raises
after `max_retries` is exceeded, and otherwise sleeps and retries; a received
payload is validated candle by candle (well-formed 6-field shape, numeric
fields, `high >= low`, non-negative high/low/volume) and a validation
failure raises immediately — it is never retried.  `save_klines` upserts
each candle by (ticker, timeframe, timestamp): `ON CONFLICT DO UPDATE` sets
open, high, low, close, volume *and* `candle_pattern` (the inserted
`candle_pattern` value is always the empty string). -/

/-- One raw kline element of an API page: a list of fields, where `none`
models a field on which numeric conversion fails. -/
abbrev RawKline := List (Option ℚ)

/-- Numeric value of field i of a raw kline (0 = timestamp, 1 = open,
2 = high, 3 = low, 4 = close, 5 = volume); only used under well-formedness. -/
def fieldD (c : RawKline) (i : ℕ) : ℚ :=
  (c.getD i none).getD 0

/-- The per-candle validation of `get_klines`: at least 6 fields, the first
6 numeric, and not (`high < low` or `high < 0` or `low < 0` or `volume < 0`). -/
def klineValid (c : RawKline) : Prop :=
  6 ≤ c.length ∧ (∀ x ∈ c.take 6, x.isSome = true) ∧
    ¬(fieldD c 2 < fieldD c 3 ∨ fieldD c 2 < 0 ∨ fieldD c 3 < 0 ∨ fieldD c 5 < 0)

instance (c : RawKline) : Decidable (klineValid c) := by
  unfold klineValid
  infer_instance

/-- One outcome of the HTTP request inside the retry loop. -/
inductive Resp where
  | transportErr : Resp
  | payload : List RawKline → Resp

/-- The two error classes `get_klines` can raise. -/
inductive FetchErr where
  | transport : FetchErr
  | dataIntegrity : FetchErr
deriving DecidableEq, Repr

/-- The `while True` retry loop of `get_klines` over a stream of responses:
a transport error is retried until `retry_count > max_retries`; a payload is
validated and either returned or rejected as a DataIntegrity error with no
further attempt. -/
def getKlinesLoop (maxRetries : ℕ) : List Resp → ℕ → FetchErr ⊕ List RawKline
  | [], _ => .inl .transport
  | Resp.payload page :: _, _ =>
      if ∀ k ∈ page, klineValid k then .inr page else .inl .dataIntegrity
  | Resp.transportErr :: rest, retryCount =>
      if maxRetries < retryCount + 1 then .inl .transport
      else getKlinesLoop maxRetries rest (retryCount + 1)

/-- Primary key of the `ohlc_data` table. -/
structure Key where
  ticker : String
  timeframe : String
  ts : ℚ
deriving DecidableEq, Repr

/-- One row of the `ohlc_data` table. -/
structure Row where
  open_price : ℚ
  high : ℚ
  low : ℚ
  close : ℚ
  vol : ℚ
  candle_pattern : String
deriving DecidableEq, Repr

/-- The row `save_klines` builds from a kline: OHLCV fields plus the
constant empty `candle_pattern`. -/
def rowOfKline (c : RawKline) : Row :=
  { open_price := fieldD c 1, high := fieldD c 2, low := fieldD c 3,
    close := fieldD c 4, vol := fieldD c 5, candle_pattern := "" }

/-- `INSERT ... ON CONFLICT (ticker, timeframe, timestamp) DO UPDATE` for a
single row of the keyed candle table. -/
def upsertCandle : List (Key × Row) → Key → Row → List (Key × Row)
  | [], k, r => [(k, r)]
  | kv :: tl, k, r => if kv.1 = k then (k, r) :: tl else kv :: upsertCandle tl k r

/-- `save_klines`: upsert every candle of the page under its
(ticker, timeframe, timestamp) key. -/
def save_klines (store : List (Key × Row)) (tkr tf : String) (page : List RawKline) :
    List (Key × Row) :=
  page.foldl (fun st c => upsertCandle st ⟨tkr, tf, fieldD c 0⟩ (rowOfKline c)) store

/-- Lookup of the row stored under a key. -/
def findRow (store : List (Key × Row)) (k : Key) : Option Row :=
  (store.find? fun kv => decide (kv.1 = k)).map Prod.snd

/-- One page iteration of `main.fetch_historical_data`: fetch via the retry
loop, and only on success persist the page; an error propagates with the
store untouched. -/
def fetchPageStep (store : List (Key × Row)) (tkr tf : String)
    (responses : List Resp) (maxRetries : ℕ) : (FetchErr ⊕ Unit) × List (Key × Row) :=
  match getKlinesLoop maxRetries responses 0 with
  | .inl e => (.inl e, store)
  | .inr page => (.inr (), save_klines store tkr tf page)

/-- C8: if the first response is a page containing an invalid candle
(malformed shape, unparsable field, `high < low`, or a negative
high/low/volume), the fetch signals DataIntegrity immediately — regardless
of the remaining responses and of the retry budget — and the store is
returned unchanged: no candle of the page is persisted and all previously
stored candles are intact. -/
theorem page_validation_rejects (store : List (Key × Row)) (tkr tf : String)
    (page : List RawKline) (rest : List Resp) (maxRetries : ℕ) (c : RawKline)
    (hc : c ∈ page) (hbad : ¬ klineValid c) :
    fetchPageStep store tkr tf (Resp.payload page :: rest) maxRetries =
      (Sum.inl FetchErr.dataIntegrity, store) := by
  have hpage : ¬ ∀ k ∈ page, klineValid k := fun h => hbad (h c hc)
  simp [fetchPageStep, getKlinesLoop, hpage]

/-- Witness for C8: a one-candle page with high = 1 < low = 2 on a store
holding one previously fetched candle. -/
theorem page_validation_rejects_witness :
    fetchPageStep [(⟨"BTCUSDT", "1h", 0⟩, ⟨1, 2, 0, 1, 1, ""⟩)] "BTCUSDT" "1h"
      [Resp.payload [[some 0, some 1, some 1, some 2, some 1, some 1]], Resp.transportErr] 3 =
      (Sum.inl FetchErr.dataIntegrity, [(⟨"BTCUSDT", "1h", 0⟩, ⟨1, 2, 0, 1, 1, ""⟩)]) :=
  page_validation_rejects _ "BTCUSDT" "1h" _ _ 3 [some 0, some 1, some 1, some 2, some 1, some 1]
    (by simp) (by norm_num [klineValid, fieldD])

theorem findRow_upsert_self (store : List (Key × Row)) (k : Key) (r : Row) :
    findRow (upsertCandle store k r) k = some r := by
  induction store with
  | nil => simp [upsertCandle, findRow, List.find?]
  | cons kv tl ih =>
    by_cases h : kv.1 = k
    · simp [upsertCandle, if_pos h, findRow, List.find?]
    · simp only [upsertCandle, if_neg h]
      simpa [findRow, List.find?, h] using ih

theorem findRow_upsert_other (store : List (Key × Row)) (k k' : Key) (r : Row)
    (h : k' ≠ k) :
    findRow (upsertCandle store k r) k' = findRow store k' := by
  have hne : ¬ k = k' := fun he => h he.symm
  induction store with
  | nil => simp [upsertCandle, findRow, List.find?, hne]
  | cons kv tl ih =>
    by_cases hk : kv.1 = k
    · simp [upsertCandle, if_pos hk, findRow, List.find?, hk, hne]
    · by_cases hk' : kv.1 = k'
      · simp [upsertCandle, if_neg hk, findRow, List.find?, hk', h]
      · simp only [upsertCandle, if_neg hk]
        simpa [findRow, List.find?, hk'] using ih

/-- C9 counterexample: the store holds the key with pattern label "Doji";
re-upserting the same candle (corrected OHLCV) resets the label to the
empty string — the upsert does *not* leave the pattern label unchanged. -/
theorem upsert_pattern_counterexample :
    (findRow [(⟨"BTCUSDT", "1h", 0⟩, ⟨1, 2, 0, 1, 1, "Doji"⟩)] ⟨"BTCUSDT", "1h", 0⟩).map
        Row.candle_pattern = some "Doji" ∧
    (findRow (save_klines [(⟨"BTCUSDT", "1h", 0⟩, ⟨1, 2, 0, 1, 1, "Doji"⟩)] "BTCUSDT" "1h"
        [[some 0, some 1, some 2, some 1, some (3/2), some 4]]) ⟨"BTCUSDT", "1h", 0⟩).map
        Row.candle_pattern = some "" := by
  constructor
  · simp [findRow, List.find?]
  · norm_num [save_klines, upsertCandle, findRow, List.find?, rowOfKline, fieldD]

/-- C9 (amended): upserting a candle whose key already exists overwrites the
row's OHLCV fields *and resets its `candle_pattern` to the empty string*
(the insert always carries an empty pattern and the conflict action updates
that column too); rows under every other key are unchanged. -/
theorem upsert_overwrites_row (store : List (Key × Row)) (tkr tf : String) (c : RawKline) :
    findRow (save_klines store tkr tf [c]) ⟨tkr, tf, fieldD c 0⟩ = some (rowOfKline c) ∧
    (rowOfKline c).candle_pattern = "" ∧
    (∀ k', k' ≠ ⟨tkr, tf, fieldD c 0⟩ →
      findRow (save_klines store tkr tf [c]) k' = findRow store k') := by
  refine ⟨?_, rfl, ?_⟩
  · simpa [save_klines] using findRow_upsert_self store ⟨tkr, tf, fieldD c 0⟩ (rowOfKline c)
  · intro k' hk'
    simpa [save_klines] using findRow_upsert_other store ⟨tkr, tf, fieldD c 0⟩ k' (rowOfKline c) hk'

/-- Witness for C9 (amended) on the counterexample store, with a distinct
other key left untouched. -/
theorem upsert_overwrites_row_witness :
    findRow (save_klines [(⟨"BTCUSDT", "1h", 0⟩, ⟨1, 2, 0, 1, 1, "Doji"⟩)] "BTCUSDT" "1h"
        [[some 0, some 1, some 2, some 1, some (3/2), some 4]])
      ⟨"BTCUSDT", "1h", fieldD [some 0, some 1, some 2, some 1, some (3/2), some 4] 0⟩ =
      some (rowOfKline [some 0, some 1, some 2, some 1, some (3/2), some 4]) ∧
    findRow (save_klines [(⟨"BTCUSDT", "1h", 0⟩, ⟨1, 2, 0, 1, 1, "Doji"⟩)] "BTCUSDT" "1h"
        [[some 0, some 1, some 2, some 1, some (3/2), some 4]]) ⟨"ETHUSDT", "1h", 5⟩ =
      findRow [(⟨"BTCUSDT", "1h", 0⟩, ⟨1, 2, 0, 1, 1, "Doji"⟩)] ⟨"ETHUSDT", "1h", 5⟩ := by
  have h := upsert_overwrites_row [(⟨"BTCUSDT", "1h", 0⟩, ⟨1, 2, 0, 1, 1, "Doji"⟩)] "BTCUSDT" "1h"
    [some 0, some 1, some 2, some 1, some (3/2), some 4]
  exact ⟨h.1, h.2.2 ⟨"ETHUSDT", "1h", 5⟩ (by norm_num [fieldD, Key.mk.injEq])⟩
